import Mathlib

/-!
Formal model of the steam-sentiment-analyzer repository.

The three Python source files are shallowly embedded here:

* `data_collecter.py` : `get_reviews_with_pagination` (cursor-paginated fetch
  from the Steam appreviews API) and `save_to_mongo` (deduplicating upsert
  into the `reviews` Mongo collection).
* `sentiment_analyzer.py` : the language gate `is_actually_english`, the
  context classifier wrapper `get_roberta_sentiment`, and the orchestrator
  `analyze_sentiment`.
* `app.py` : the dashboard's `load_data` derivations (`vader_label`,
  `models_agree`) and the tab-2 disagreement computation.

External effects are modelled as explicit parameters:
* the HTTP layer of the fetch is a function `String → Option SteamPage`
  from cursor to response, `none` standing for a raised exception
  (network or JSON-decoding failure);
* `langdetect.detect` is a function `String → Option String`, `none`
  standing for a raised `LangDetectException`;
* the VADER compound score is a function `String → ℚ` (the numeric model
  is a black box; only its output value matters here);
* the RoBERTa model+softmax pipeline is a function
  `String → Option (Fin 3 → ℚ)` giving the post-softmax scores in the
  order [Negative, Neutral, Positive], `none` standing for an internal
  exception.

Mongo documents are records with `Option` fields for keys that may be
absent; documents are keyed by the unique Mongo `_id` (field `id`).
-/

/-- Raw review payload returned by the Steam appreviews API.  Steam's
payload carries its own keys (`recommendationid`, `review`, vote data, ...)
and never contains any of the analyzer's annotation keys
(`vader_score`, `roberta_label`, `roberta_confidence`, `analyzed_at`,
`skipped`, `reason`). -/
structure RawReview where
  recommendationid : Nat
  review : String
deriving DecidableEq

/-- One decoded page of the Steam appreviews response: the `success` flag,
the `reviews` array and the continuation `cursor` for the next request. -/
structure SteamPage where
  success : Nat
  reviews : List RawReview
  cursor : String
deriving DecidableEq

/-- The `while len(reviews_collected) < target_count` loop of
`get_reviews_with_pagination` (data_collecter.py lines 43-76).  The pair
returned is (accumulated reviews, number of page requests issued).  A
`none` response is the `except` branch (line 74): break with the records
accumulated so far.  A successful response with `success == 1` and a
non-empty `reviews` array extends the accumulator and continues at the
returned cursor; anything else is the `else` branch (line 69): break.

The loop is fuel-indexed to make it structurally recursive; the caller
passes `fuel = target`, which is exact: every continuing iteration adds at
least one review to an accumulator that starts at the caller's value, so
when the fuel runs out the accumulated length has already reached the
target and the `while` condition would have ended the loop anyway. -/
def fetchLoop (source : String → Option SteamPage) (target : Nat) :
    Nat → String → List RawReview → List RawReview × Nat
  | 0, _, acc => (acc, 0)
  | fuel + 1, cursor, acc =>
    if acc.length < target then
      match source cursor with
      | none => (acc, 1)
      | some page =>
        if page.success = 1 ∧ 0 < page.reviews.length then
          let rest := fetchLoop source target fuel page.cursor (acc ++ page.reviews)
          (rest.1, rest.2 + 1)
        else
          (acc, 1)
    else
      (acc, 0)

/-- `get_reviews_with_pagination(app_id, target_count)` (data_collecter.py
lines 34-79).  The cursor starts at the sentinel `"*"` and the final
accumulated list is trimmed with `reviews_collected[:target_count]`.  In
addition to the returned list the model exposes the number of page
requests issued, the observable the pagination-bound property is about. -/
def get_reviews_with_pagination (source : String → Option SteamPage)
    (target_count : Nat) : List RawReview × Nat :=
  let r := fetchLoop source target_count target_count "*" []
  (r.1.take target_count, r.2)

/-- Result of the context classifier: label and confidence. -/
structure SentimentResult where
  label : String
  confidence : ℚ
deriving DecidableEq

/-- Index selected by `np.argsort(scores)[-1]` on a 3-vector
(sentiment_analyzer.py lines 56-57).  `argsort` is ascending and stable,
so the last position holds the maximum value, ties resolved to the
largest index. -/
def argmaxIdx (s : Fin 3 → ℚ) : Fin 3 :=
  if s 0 ≤ s 2 ∧ s 1 ≤ s 2 then 2
  else if s 0 ≤ s 1 then 1
  else 0

/-- The label list `['Negative', 'Neutral', 'Positive']`
(sentiment_analyzer.py line 55). -/
def robertaLabels : Fin 3 → String
  | 0 => "Negative"
  | 1 => "Neutral"
  | 2 => "Positive"

/-- `get_roberta_sentiment(text)` (sentiment_analyzer.py lines 48-65).
`model text = none` is the `except` branch: any internal failure returns
the safe default `{"label": "Neutral", "confidence": 0.0}`.  On success
the result is the top label under `argsort` with its score as
confidence. -/
def get_roberta_sentiment (model : String → Option (Fin 3 → ℚ))
    (text : String) : SentimentResult :=
  match model text with
  | none => ⟨"Neutral", 0⟩
  | some s => ⟨robertaLabels (argmaxIdx s), s (argmaxIdx s)⟩

/-- `is_actually_english(text)` (sentiment_analyzer.py lines 67-78).
Texts shorter than 3 characters are assumed English without running
detection; otherwise the detector runs and the text is eligible iff it
detects `'en'`; a detection exception (`detect text = none`) resolves to
`False`. -/
def is_actually_english (detect : String → Option String) (text : String) :
    Bool :=
  if text.length < 3 then true
  else
    match detect text with
    | some lang => lang == "en"
    | none => false

/-- A document of the `reviews` Mongo collection.  `id` is the unique
Mongo `_id` (Mongo enforces `_id` uniqueness, so two stored documents
never share an `id`).  Fields that a document may lack are `Option`;
the review body is read with `review.get('review', '')` so an absent body
is identified with `""`. -/
structure ReviewDoc where
  id : Nat
  recommendationid : Nat
  game_name : Option String
  review : String
  vader_score : Option ℚ
  roberta_label : Option String
  roberta_confidence : Option ℚ
  analyzed_at : Option String
  skipped : Option Bool
  reason : Option String
deriving DecidableEq

/-- Update the first element of the list satisfying `p` with `f`,
leaving everything else unchanged: the effect of a Mongo `UpdateOne`
(which updates a single matching document) on an ordered collection. -/
def updateFirst {α : Type} (p : α → Bool) (f : α → α) : List α → List α
  | [] => []
  | x :: xs => if p x then f x :: xs else x :: updateFirst p f xs

/-- `collection.bulk_write(operations)` for a list of
`UpdateOne({"_id": i}, patch)` operations: each operation updates the
first (with unique ids, the only) document whose `id` matches. -/
def bulk_write (store : List ReviewDoc)
    (ops : List (Nat × (ReviewDoc → ReviewDoc))) : List ReviewDoc :=
  ops.foldl (fun st op => updateFirst (fun r => r.id == op.1) op.2 st) store

/-- The `update_many({}, {"$unset": {"roberta_label": "", "vader_score": ""}})`
reset (sentiment_analyzer.py line 84), applied to one document: it removes
exactly the `roberta_label` and `vader_score` fields. -/
def resetReview (r : ReviewDoc) : ReviewDoc :=
  { r with roberta_label := none, vader_score := none }

/-- The `$set` document of the skip patch (sentiment_analyzer.py
line 104): `{"skipped": True, "reason": "Not English/Empty"}`. -/
def skipPatch (r : ReviewDoc) : ReviewDoc :=
  { r with skipped := some true, reason := some "Not English/Empty" }

/-- The `$set` document of the analysis patch (sentiment_analyzer.py
lines 116-124), with the concrete values already computed from the
selected review's text. -/
def analyzePatch (score : ℚ) (rob : SentimentResult) (r : ReviewDoc) :
    ReviewDoc :=
  { r with vader_score := some score,
           roberta_label := some rob.label,
           roberta_confidence := some rob.confidence,
           analyzed_at := some "hybrid_v2" }

/-- Python truthiness of `not text.strip()` (sentiment_analyzer.py
line 102): true iff every character of the text is whitespace (in
particular for the empty text). -/
def isBlank (text : String) : Bool :=
  text.data.all Char.isWhitespace

/-- The `UpdateOne` operation built for one selected review `r` in the
loop body (sentiment_analyzer.py lines 98-125): the cleanliness check on
`r`'s text chooses between the skip patch and the analysis patch, whose
field values are computed from `r`'s text. -/
def mkOp (detect : String → Option String) (vader : String → ℚ)
    (model : String → Option (Fin 3 → ℚ)) (r : ReviewDoc) :
    ReviewDoc → ReviewDoc :=
  if isBlank r.review || !(is_actually_english detect r.review) then
    skipPatch
  else
    analyzePatch (vader r.review) (get_roberta_sentiment model r.review)

/-- The per-record effect of one orchestrator pass on a selected record:
the operation built from `r` applied to `r` itself (with unique ids the
`UpdateOne` filter `{"_id": r["_id"]}` finds exactly the document the
operation was built from). -/
def process_review (detect : String → Option String) (vader : String → ℚ)
    (model : String → Option (Fin 3 → ℚ)) (r : ReviewDoc) : ReviewDoc :=
  mkOp detect vader model r r

/-- `analyze_sentiment()` (sentiment_analyzer.py lines 80-132) as a
function on the stored collection: first the global reset of
`roberta_label`/`vader_score` (line 84), then the selection
`{"roberta_label": {"$exists": False}}` (line 87), then one `UpdateOne`
per selected record, all applied in one `bulk_write` (line 131). -/
def analyze_sentiment (detect : String → Option String) (vader : String → ℚ)
    (model : String → Option (Fin 3 → ℚ)) (store : List ReviewDoc) :
    List ReviewDoc :=
  let store1 := store.map resetReview
  let toProcess := store1.filter (fun r => r.roberta_label.isNone)
  bulk_write store1 (toProcess.map (fun r => (r.id, mkOp detect vader model r)))

/-- Uniqueness of Mongo `_id`s in the stored collection. -/
abbrev idsNodup (store : List ReviewDoc) : Prop :=
  (store.map ReviewDoc.id).Nodup

/-- `save_to_mongo`: the new document inserted when no stored document
matches the `recommendationid` (upsert branch); it holds exactly the raw
payload's fields plus the added `game_name`, with a fresh `_id`. -/
def newDoc (raw : RawReview) (game : String) (freshId : Nat) : ReviewDoc :=
  { id := freshId,
    recommendationid := raw.recommendationid,
    game_name := some game,
    review := raw.review,
    vader_score := none,
    roberta_label := none,
    roberta_confidence := none,
    analyzed_at := none,
    skipped := none,
    reason := none }

/-- `save_to_mongo`: the `$set` merge applied when a stored document with
the same `recommendationid` exists.  `$set` writes exactly the keys
present in the raw payload (after `review['game_name'] = game_name`),
which are raw Steam keys plus `game_name` and never include annotation
keys. -/
def mergeRaw (raw : RawReview) (game : String) (d : ReviewDoc) : ReviewDoc :=
  { d with recommendationid := raw.recommendationid,
           game_name := some game,
           review := raw.review }

/-- One `UpdateOne({"recommendationid": ...}, {"$set": review}, upsert=True)`
of `save_to_mongo` (data_collecter.py lines 90-94): update the first
matching document, or append a new one if none matches. -/
def upsertOne (store : List ReviewDoc) (raw : RawReview) (game : String) :
    List ReviewDoc :=
  if store.any (fun d => d.recommendationid == raw.recommendationid) then
    updateFirst (fun d => d.recommendationid == raw.recommendationid)
      (mergeRaw raw game) store
  else
    store ++ [newDoc raw game (store.length + raw.recommendationid)]

/-- `save_to_mongo(reviews, game_name)` (data_collecter.py lines 81-100):
the batch of upserts applied in order. -/
def save_to_mongo (store : List ReviewDoc) (reviews : List RawReview)
    (game : String) : List ReviewDoc :=
  reviews.foldl (fun st raw => upsertOne st raw game) store

/-- The previously computed annotation fields of a stored document
(the fields `save_to_mongo` must not clobber). -/
def annotOf (d : ReviewDoc) :
    Option ℚ × Option String × Option ℚ × Option String :=
  (d.vader_score, d.roberta_label, d.roberta_confidence, d.analyzed_at)

/-- Dashboard `load_data`: `df['roberta_label'].fillna('Skipped')`
(app.py line 57). -/
def fillnaLabel (r : ReviewDoc) : String :=
  r.roberta_label.getD "Skipped"

/-- Dashboard `get_vader_label(row)` (app.py lines 62-68): `'Skipped'`
whenever the row's RoBERTa label is `'Skipped'`, otherwise the fixed
±0.05 thresholds on the (numerically filled) VADER score. -/
def get_vader_label (robLabel : String) (score : ℚ) : String :=
  if robLabel == "Skipped" then "Skipped"
  else if 1 / 20 ≤ score then "Positive"
  else if score ≤ -(1 / 20) then "Negative"
  else "Neutral"

/-- Dashboard derived column `vader_label` for one row; the score uses
`fillna(0.0)` (app.py line 50). -/
def vaderLabelRow (r : ReviewDoc) : String :=
  get_vader_label (fillnaLabel r) (r.vader_score.getD 0)

/-- Dashboard `models_agree` column (app.py line 73):
`(roberta_label == vader_label) & (roberta_label != 'Skipped')`. -/
def models_agree (r : ReviewDoc) : Bool :=
  (fillnaLabel r == vaderLabelRow r) && (fillnaLabel r != "Skipped")

/-- Number of rows where the models agree
(`game_df[game_df['models_agree']]`, app.py line 203). -/
def agreeCount (rs : List ReviewDoc) : Nat :=
  (rs.filter models_agree).length

/-- Number of rows in the tab-2 disagreement set
(`disagreement_df = game_df[~game_df['models_agree']]`, app.py
line 179). -/
def disagreeCount (rs : List ReviewDoc) : Nat :=
  (rs.filter (fun r => !models_agree r)).length

theorem updateFirst_cons_true {α : Type} (p : α → Bool) (f : α → α)
    (x : α) (xs : List α) (h : p x = true) :
    updateFirst p f (x :: xs) = f x :: xs := by
  simp [updateFirst, h]

theorem updateFirst_cons_false {α : Type} (p : α → Bool) (f : α → α)
    (x : α) (xs : List α) (h : p x = false) :
    updateFirst p f (x :: xs) = x :: updateFirst p f xs := by
  simp [updateFirst, h]

theorem length_updateFirst {α : Type} (p : α → Bool) (f : α → α) :
    ∀ l : List α, (updateFirst p f l).length = l.length := by
  intro l
  induction l with
  | nil => rfl
  | cons x xs ih =>
    by_cases h : p x = true
    · simp [updateFirst, h]
    · simp only [Bool.not_eq_true] at h
      simp [updateFirst, h, ih]

theorem map_updateFirst {α β : Type} (p : α → Bool) (f : α → α) (g : α → β)
    (hg : ∀ x, g (f x) = g x) :
    ∀ l : List α, (updateFirst p f l).map g = l.map g := by
  intro l
  induction l with
  | nil => rfl
  | cons x xs ih =>
    by_cases h : p x = true
    · simp [updateFirst, h, hg]
    · simp only [Bool.not_eq_true] at h
      simp [updateFirst, h, ih]

theorem bulk_write_cons (store : List ReviewDoc) (o : Nat × (ReviewDoc → ReviewDoc))
    (ops : List (Nat × (ReviewDoc → ReviewDoc))) :
    bulk_write store (o :: ops) =
      bulk_write (updateFirst (fun r => r.id == o.1) o.2 store) ops := rfl

theorem bulk_write_skip_head (ops : List (Nat × (ReviewDoc → ReviewDoc))) :
    ∀ (x : ReviewDoc) (xs : List ReviewDoc),
      (∀ o ∈ ops, (x.id == o.1) = false) →
      bulk_write (x :: xs) ops = x :: bulk_write xs ops := by
  induction ops with
  | nil => intro x xs _; rfl
  | cons o ops ih =>
    intro x xs h
    rw [bulk_write_cons,
      updateFirst_cons_false (fun r => r.id == o.1) o.2 x xs (h o (by simp)),
      ih x _ (fun o' ho' => h o' (by simp [ho']))]
    rfl

theorem bulk_write_map (F : ReviewDoc → ReviewDoc → ReviewDoc)
    (hF : ∀ r s, (F r s).id = s.id) :
    ∀ store : List ReviewDoc, (store.map ReviewDoc.id).Nodup →
      bulk_write store (store.map fun r => (r.id, F r)) =
        store.map fun r => F r r := by
  intro store
  induction store with
  | nil => intro _; rfl
  | cons r rest ih =>
    intro hn
    simp only [List.map_cons, List.nodup_cons, List.mem_map] at hn
    rw [List.map_cons, bulk_write_cons,
      updateFirst_cons_true _ _ _ _ (by simp),
      bulk_write_skip_head _ (F r r) rest ?hids, ih hn.2, List.map_cons]
    intro o ho
    simp only [List.mem_map] at ho
    obtain ⟨r', hr', rfl⟩ := ho
    have : r.id ≠ r'.id := fun h => hn.1 ⟨r', hr', h.symm⟩
    simp [hF, this]

theorem filter_eq_self_of_all {α : Type} (p : α → Bool) :
    ∀ l : List α, (∀ x ∈ l, p x = true) → l.filter p = l := by
  intro l
  induction l with
  | nil => intro _; rfl
  | cons x xs ih =>
    intro h
    simp [List.filter, h x (by simp), ih (fun y hy => h y (by simp [hy]))]

theorem mkOp_id (detect : String → Option String) (vader : String → ℚ)
    (model : String → Option (Fin 3 → ℚ)) (r s : ReviewDoc) :
    (mkOp detect vader model r s).id = s.id := by
  unfold mkOp
  split
  · rfl
  · rfl

theorem resetReview_id (r : ReviewDoc) : (resetReview r).id = r.id := rfl

theorem map_id_map_reset (store : List ReviewDoc) :
    (store.map resetReview).map ReviewDoc.id = store.map ReviewDoc.id := by
  rw [List.map_map]
  rfl

/-- Driver lemma: with unique Mongo `_id`s, one orchestrator pass acts on
the store as the per-record function `process_review ∘ resetReview`
applied pointwise — the reset touches every document, the selection query
then matches every document, and the batched `UpdateOne`s each hit
exactly the document they were built from. -/
theorem analyze_eq_map (detect : String → Option String) (vader : String → ℚ)
    (model : String → Option (Fin 3 → ℚ)) (store : List ReviewDoc)
    (hn : idsNodup store) :
    analyze_sentiment detect vader model store =
      store.map fun r => process_review detect vader model (resetReview r) := by
  have hall : ∀ r ∈ store.map resetReview, r.roberta_label.isNone = true := by
    intro r hr
    simp only [List.mem_map] at hr
    obtain ⟨r0, _, rfl⟩ := hr
    rfl
  show bulk_write (store.map resetReview)
      (((store.map resetReview).filter (fun r => r.roberta_label.isNone)).map
        (fun r => (r.id, mkOp detect vader model r))) = _
  rw [filter_eq_self_of_all _ _ hall,
    bulk_write_map (mkOp detect vader model) (mkOp_id detect vader model) _
      (by rw [map_id_map_reset]; exact hn),
    List.map_map]
  rfl

theorem fetchLoop_succ_ok (source : String → Option SteamPage) (target fuel : Nat)
    (cursor : String) (acc : List RawReview) (page : SteamPage)
    (hlt : acc.length < target) (hp : source cursor = some page)
    (hs : page.success = 1) (hne : 0 < page.reviews.length) :
    fetchLoop source target (fuel + 1) cursor acc =
      ((fetchLoop source target fuel page.cursor (acc ++ page.reviews)).1,
       (fetchLoop source target fuel page.cursor (acc ++ page.reviews)).2 + 1) := by
  simp [fetchLoop, hlt, hp, hs, hne]

theorem fetchLoop_succ_err (source : String → Option SteamPage) (target fuel : Nat)
    (cursor : String) (acc : List RawReview)
    (hlt : acc.length < target) (hp : source cursor = none) :
    fetchLoop source target (fuel + 1) cursor acc = (acc, 1) := by
  simp [fetchLoop, hlt, hp]

theorem fetchLoop_requests_le (source : String → Option SteamPage) (target : Nat)
    (h : ∀ c, ∃ p, source c = some p ∧ p.success = 1 ∧ p.reviews.length = 100) :
    ∀ (fuel : Nat) (cursor : String) (acc : List RawReview),
      (fetchLoop source target fuel cursor acc).2 ≤
        (target - acc.length + 99) / 100 := by
  intro fuel
  induction fuel with
  | zero => intro cursor acc; simp [fetchLoop]
  | succ fuel ih =>
    intro cursor acc
    by_cases hlt : acc.length < target
    · obtain ⟨p, hp, hs, hl⟩ := h cursor
      rw [fetchLoop_succ_ok source target fuel cursor acc p hlt hp hs (by omega)]
      have hrec := ih p.cursor (acc ++ p.reviews)
      simp only [List.length_append, hl] at hrec
      simp only
      omega
    · simp [fetchLoop, hlt]

/-- C7: with target count 500 and full pages of 100 reviews, the fetcher
issues at most 5 page requests; for every fetch the returned list holds
at most the target count of records, overshoot being truncated to exactly
the target count.  The request count is `(· ).2` of the model; the bound
`(500 - 0 + 99) / 100 = 5` comes from each continuing iteration adding a
full page. -/
theorem pagination_bound (source src : String → Option SteamPage) (t : Nat)
    (h : ∀ c, ∃ p, source c = some p ∧ p.success = 1 ∧ p.reviews.length = 100)
    (hov : t ≤ (fetchLoop src t t "*" []).1.length) :
    (get_reviews_with_pagination source 500).2 ≤ 5
    ∧ (get_reviews_with_pagination src t).1.length ≤ t
    ∧ (get_reviews_with_pagination src t).1.length = t := by
  refine ⟨?_, ?_, ?_⟩
  · have := fetchLoop_requests_le source 500 h 500 "*" []
    simpa [get_reviews_with_pagination] using this
  · simp [get_reviews_with_pagination]
  · simp [get_reviews_with_pagination]
    omega

/-- A source that always answers with a full page of 100 reviews. -/
def fullPageSource : String → Option SteamPage :=
  fun c => some ⟨1, List.replicate 100 ⟨0, "good game"⟩, c⟩

set_option maxRecDepth 4000 in
theorem pagination_bound_witness :
    (get_reviews_with_pagination fullPageSource 500).2 ≤ 5
    ∧ (get_reviews_with_pagination fullPageSource 50).1.length ≤ 50
    ∧ (get_reviews_with_pagination fullPageSource 50).1.length = 50 :=
  pagination_bound fullPageSource fullPageSource 50
    (fun c => ⟨⟨1, List.replicate 100 ⟨0, "good game"⟩, c⟩, rfl, rfl,
      List.length_replicate 100 _⟩)
    (by decide)

theorem length_le_length_flatten :
    ∀ l : List (List RawReview), (∀ x ∈ l, 0 < x.length) →
      l.length ≤ l.flatten.length := by
  intro l
  induction l with
  | nil => intro _; simp
  | cons x xs ih =>
    intro h
    have h1 := h x (by simp)
    have h2 := ih (fun y hy => h y (by simp [hy]))
    simp only [List.length_cons, List.flatten_cons, List.length_append]
    omega

/-- Loop-level failure property: from any loop state (cursor,
accumulator), if the source serves a chain of successful non-empty pages
`pages` (request `i` issued at the cursor obtained by following the
chain through the first `i` pages) and then fails, while the accumulated
records stay below the target, the loop returns the accumulator extended
by exactly the served pages' reviews after `pages.length + 1` requests —
nothing already fetched is discarded. -/
theorem fetchLoop_failure_partial (source : String → Option SteamPage)
    (target : Nat) :
    ∀ (pages : List SteamPage) (fuel : Nat) (cursor : String)
      (acc : List RawReview),
      (∀ i (h : i < pages.length),
        source ((pages.take i).foldl (fun _ q => q.cursor) cursor) =
            some (pages.get ⟨i, h⟩)
          ∧ (pages.get ⟨i, h⟩).success = 1
          ∧ 0 < (pages.get ⟨i, h⟩).reviews.length) →
      source (pages.foldl (fun _ q => q.cursor) cursor) = none →
      (acc ++ (pages.map SteamPage.reviews).flatten).length < target →
      pages.length < fuel →
      fetchLoop source target fuel cursor acc =
        (acc ++ (pages.map SteamPage.reviews).flatten, pages.length + 1) := by
  intro pages
  induction pages with
  | nil =>
    intro fuel cursor acc _ hfail hlen hfuel
    obtain ⟨f, rfl⟩ : ∃ f, fuel = f + 1 := ⟨fuel - 1, by omega⟩
    simp only [List.foldl_nil] at hfail
    simp only [List.map_nil, List.flatten_nil, List.append_nil] at hlen ⊢
    exact fetchLoop_succ_err source target f cursor acc hlen hfail
  | cons p ps ih =>
    intro fuel cursor acc hgood hfail hlen hfuel
    obtain ⟨f, rfl⟩ : ∃ f, fuel = f + 1 := ⟨fuel - 1, by omega⟩
    have h0 : source cursor = some p ∧ p.success = 1
        ∧ 0 < p.reviews.length := by
      simpa using hgood 0 (by simp)
    have hacc : acc.length < target := by
      simp only [List.map_cons, List.flatten_cons, List.length_append] at hlen
      omega
    rw [fetchLoop_succ_ok source target f cursor acc p hacc h0.1 h0.2.1 h0.2.2]
    have hgood' : ∀ i (h : i < ps.length),
        source ((ps.take i).foldl (fun _ q => q.cursor) p.cursor) =
            some (ps.get ⟨i, h⟩)
          ∧ (ps.get ⟨i, h⟩).success = 1
          ∧ 0 < (ps.get ⟨i, h⟩).reviews.length := by
      intro i h
      have hh := hgood (i + 1) (by simp only [List.length_cons]; omega)
      simpa [List.take_succ_cons, List.foldl_cons] using hh
    have hfail' : source (ps.foldl (fun _ q => q.cursor) p.cursor) = none := by
      simpa [List.foldl_cons] using hfail
    have hlen' : ((acc ++ p.reviews)
        ++ (ps.map SteamPage.reviews).flatten).length < target := by
      simp only [List.map_cons, List.flatten_cons, List.length_append] at hlen
      simp only [List.length_append]
      omega
    have hfuel' : ps.length < f := by
      simp only [List.length_cons] at hfuel
      omega
    rw [ih f p.cursor (acc ++ p.reviews) hgood' hfail' hlen' hfuel']
    simp [List.append_assoc]

/-- C8: a network or decoding failure on any single page request ends
the fetch for that source, and the fetcher returns the records
accumulated from all the earlier successful pages: for an arbitrary
chain of successful non-empty pages followed by a failing request, the
result is exactly the concatenation of the served pages' reviews, after
one request per page plus the failing one.  The trim to the target count
is vacuous in the failure case, because another request is only issued
while the accumulated count is still below the target (second
conjunct); and the model is a total function, so no exception reaches
the caller. -/
theorem fetch_failure_partial (source : String → Option SteamPage)
    (target : Nat) (pages : List SteamPage)
    (hgood : ∀ i (h : i < pages.length),
      source ((pages.take i).foldl (fun _ q => q.cursor) "*") =
          some (pages.get ⟨i, h⟩)
        ∧ (pages.get ⟨i, h⟩).success = 1
        ∧ 0 < (pages.get ⟨i, h⟩).reviews.length)
    (hfail : source (pages.foldl (fun _ q => q.cursor) "*") = none)
    (hlt : ((pages.map SteamPage.reviews).flatten).length < target) :
    get_reviews_with_pagination source target =
      ((pages.map SteamPage.reviews).flatten, pages.length + 1)
    ∧ ((pages.map SteamPage.reviews).flatten).take target =
        (pages.map SteamPage.reviews).flatten := by
  have hpos : ∀ x ∈ pages.map SteamPage.reviews, 0 < x.length := by
    intro x hx
    obtain ⟨q, hq, rfl⟩ := List.mem_map.mp hx
    obtain ⟨n, rfl⟩ := List.mem_iff_get.mp hq
    exact (hgood n.1 n.2).2.2
  have hfuel : pages.length < target := by
    have h1 := length_le_length_flatten (pages.map SteamPage.reviews) hpos
    simp only [List.length_map] at h1
    omega
  have hloop := fetchLoop_failure_partial source target pages target "*" []
    hgood hfail (by simpa using hlt) hfuel
  constructor
  · show ((fetchLoop source target target "*" []).1.take target,
      (fetchLoop source target target "*" []).2) = _
    rw [hloop]
    simp [List.take_of_length_le (le_of_lt hlt)]
  · exact List.take_of_length_le (le_of_lt hlt)

/-- A source that serves two successful pages (three reviews in all) and
fails on the third request. -/
def twoPageSource : String → Option SteamPage :=
  fun c =>
    if c == "*" then some ⟨1, [⟨7, "nice game"⟩, ⟨8, "fun"⟩], "next1"⟩
    else if c == "next1" then some ⟨1, [⟨9, "great"⟩], "next2"⟩
    else none

theorem fetch_failure_partial_witness :
    get_reviews_with_pagination twoPageSource 10 =
      (([⟨1, [⟨7, "nice game"⟩, ⟨8, "fun"⟩], "next1"⟩,
         ⟨1, [⟨9, "great"⟩], "next2"⟩].map SteamPage.reviews).flatten, 3)
    ∧ (([⟨1, [⟨7, "nice game"⟩, ⟨8, "fun"⟩], "next1"⟩,
         ⟨1, [⟨9, "great"⟩], "next2"⟩].map SteamPage.reviews).flatten).take 10 =
        ([⟨1, [⟨7, "nice game"⟩, ⟨8, "fun"⟩], "next1"⟩,
          ⟨1, [⟨9, "great"⟩], "next2"⟩].map SteamPage.reviews).flatten :=
  fetch_failure_partial twoPageSource 10
    [⟨1, [⟨7, "nice game"⟩, ⟨8, "fun"⟩], "next1"⟩,
     ⟨1, [⟨9, "great"⟩], "next2"⟩]
    (by decide) (by decide) (by decide)

theorem argmaxIdx_is_max (s : Fin 3 → ℚ) (i : Fin 3) : s i ≤ s (argmaxIdx s) := by
  unfold argmaxIdx
  split_ifs with h1 h2
  · fin_cases i
    · exact h1.1
    · exact h1.2
    · exact le_refl _
  · push_neg at h1
    fin_cases i
    · exact h2
    · exact le_refl _
    · rcases le_or_lt (s 0) (s 2) with h | h
      · exact le_of_lt (h1 h)
      · show s 2 ≤ s 1
        linarith
  · push_neg at h1 h2
    fin_cases i
    · exact le_refl _
    · exact le_of_lt h2
    · rcases le_or_lt (s 0) (s 2) with h | h
      · show s 2 ≤ s 0
        linarith [h1 h]
      · exact le_of_lt h

/-- C9: the context classifier never propagates a failure: a failing
model run (`model text = none`) yields the safe default
`{label: Neutral, confidence: 0.0}`, and a successful run yields the
argmax category over [Negative, Neutral, Positive] with confidence equal
to that category's score; `s i ≤ s (argmaxIdx s)` states that the chosen
index really is an argmax for any score vector. -/
theorem roberta_safe_default_argmax (model : String → Option (Fin 3 → ℚ))
    (text : String) (s : Fin 3 → ℚ) (i : Fin 3) :
    get_roberta_sentiment model text =
      (model text).elim ⟨"Neutral", 0⟩
        (fun sc => ⟨robertaLabels (argmaxIdx sc), sc (argmaxIdx sc)⟩)
    ∧ s i ≤ s (argmaxIdx s) := by
  constructor
  · unfold get_roberta_sentiment
    cases model text with
    | none => rfl
    | some sc => rfl
  · exact argmaxIdx_is_max s i

/-- C3 counterexample: the text `"Love it!!"` is not below the gate's
short-length threshold (which is 3, not above 9), so the short-text
exemption does not apply to it: with a failing detector the gate marks it
ineligible, hence it is not "Eligible via the short-text rule regardless
of detection". -/
theorem love_it_not_short_cex :
    ¬ ("Love it!!".length < 3)
    ∧ is_actually_english (fun _ => none) "Love it!!" = false := by
  constructor
  · decide
  · decide

/-- C3 amended: every text strictly shorter than 3 characters is gated
Eligible without consulting the detector (the result is the same under
any two detectors), while `"Love it!!"` (9 characters) is above the
threshold and goes through statistical detection: its gate result is
`lang == "en"` for whatever language the detector returns, and `false`
if detection raises. -/
theorem short_text_gate (d d' d2 d3 : String → Option String)
    (text : String) (lang : String) (hshort : text.length < 3)
    (hdet : d2 "Love it!!" = some lang) (hfail : d3 "Love it!!" = none) :
    is_actually_english d text = true
    ∧ is_actually_english d text = is_actually_english d' text
    ∧ is_actually_english d2 "Love it!!" = (lang == "en")
    ∧ is_actually_english d3 "Love it!!" = false := by
  have hlong : ¬ ("Love it!!".length < 3) := by decide
  refine ⟨?_, ?_, ?_, ?_⟩
  · simp [is_actually_english, hshort]
  · simp [is_actually_english, hshort]
  · simp [is_actually_english, hlong, hdet]
  · simp [is_actually_english, hlong, hfail]

/-- A detector that always raises (`LangDetectException`). -/
def detectNone : String → Option String := fun _ => none

/-- A detector that always detects English. -/
def detectEn : String → Option String := fun _ => some "en"

/-- A detector that always detects French. -/
def detectFr : String → Option String := fun _ => some "fr"

theorem short_text_gate_witness :
    is_actually_english detectNone "GG" = true
    ∧ is_actually_english detectNone "GG" = is_actually_english detectFr "GG"
    ∧ is_actually_english detectFr "Love it!!" = ("fr" == "en")
    ∧ is_actually_english detectNone "Love it!!" = false :=
  short_text_gate detectNone detectFr detectFr detectNone "GG" "fr"
    (by decide) rfl rfl

theorem annotOf_mergeRaw (raw : RawReview) (game : String) (d : ReviewDoc) :
    annotOf (mergeRaw raw game d) = annotOf d := rfl

theorem upsertOne_length (store : List ReviewDoc) (raw : RawReview)
    (game : String) : store.length ≤ (upsertOne store raw game).length := by
  unfold upsertOne
  split
  · rw [length_updateFirst]
  · simp

theorem upsertOne_take_map (store : List ReviewDoc) (raw : RawReview)
    (game : String) :
    ((upsertOne store raw game).map annotOf).take store.length =
      store.map annotOf := by
  unfold upsertOne
  split
  · rw [map_updateFirst _ _ _ (fun d => annotOf_mergeRaw raw game d),
      List.take_of_length_le (by simp)]
  · rw [List.map_append]
    have hlen : store.length = (store.map annotOf).length := by simp
    rw [hlen, List.take_left]

theorem save_to_mongo_take_map (game : String) :
    ∀ (reviews : List RawReview) (store : List ReviewDoc),
      store.length ≤ (save_to_mongo store reviews game).length
      ∧ ((save_to_mongo store reviews game).map annotOf).take store.length =
          store.map annotOf := by
  intro reviews
  induction reviews with
  | nil =>
    intro store
    refine ⟨le_refl _, ?_⟩
    show ((store.map annotOf).take store.length) = store.map annotOf
    exact List.take_of_length_le (by simp)
  | cons raw raws ih =>
    intro store
    have hstep1 := upsertOne_length store raw game
    have hstep2 := upsertOne_take_map store raw game
    have hrec := ih (upsertOne store raw game)
    refine ⟨le_trans hstep1 hrec.1, ?_⟩
    show ((save_to_mongo (upsertOne store raw game) raws game).map
      annotOf).take store.length = store.map annotOf
    rw [show store.length = min store.length (upsertOne store raw game).length
        from (Nat.min_eq_left hstep1).symm,
      ← List.take_take, hrec.2, hstep2]

/-- C6: upserting a batch of raw records never erases or rewrites the
previously computed annotation fields of stored documents: along the
whole upsert the original documents keep their positions and their
`vader_score`, `roberta_label`, `roberta_confidence` and `analyzed_at`
values, and the per-document `$set` merge writes only the fields the raw
payload supplies, leaving `annotOf` unchanged. -/
theorem upsert_no_overwrite (store : List ReviewDoc) (reviews : List RawReview)
    (game : String) (raw : RawReview) (d : ReviewDoc) :
    store.length ≤ (save_to_mongo store reviews game).length
    ∧ ((save_to_mongo store reviews game).map annotOf).take store.length =
        store.map annotOf
    ∧ annotOf (mergeRaw raw game d) = annotOf d :=
  ⟨(save_to_mongo_take_map game reviews store).1,
   (save_to_mongo_take_map game reviews store).2,
   annotOf_mergeRaw raw game d⟩

/-- A VADER black box that scores every text 0. -/
def vaderZero : String → ℚ := fun _ => 0

/-- A RoBERTa black box whose every run fails. -/
def modelFail : String → Option (Fin 3 → ℚ) := fun _ => none

/-- A freshly ingested, unannotated stored document. -/
def freshDoc (i : Nat) (text : String) : ReviewDoc :=
  ⟨i, i, none, text, none, none, none, none, none, none⟩

/-- A stored document that an earlier pass marked skipped. -/
def skDoc : ReviewDoc :=
  { freshDoc 1 "hello this is a review" with
      skipped := some true, reason := some "Not English/Empty" }

/-- C10: the pass-initial reset removes exactly the `roberta_label` and
`vader_score` fields of every stored record, leaving
`roberta_confidence`, `analyzed_at`, `skipped` and `reason` in place;
after it, the selection query `roberta_label does not exist` matches the
entire corpus, and the whole pass acts as the per-record
re-analysis applied to every stored record. -/
theorem reset_frame_and_full_selection (detect : String → Option String)
    (vader : String → ℚ) (model : String → Option (Fin 3 → ℚ))
    (store : List ReviewDoc) (hn : idsNodup store) (r : ReviewDoc) :
    (store.map resetReview).filter (fun x => x.roberta_label.isNone) =
        store.map resetReview
    ∧ (resetReview r).roberta_label = none
    ∧ (resetReview r).vader_score = none
    ∧ (resetReview r).roberta_confidence = r.roberta_confidence
    ∧ (resetReview r).analyzed_at = r.analyzed_at
    ∧ (resetReview r).skipped = r.skipped
    ∧ (resetReview r).reason = r.reason
    ∧ analyze_sentiment detect vader model store =
        store.map fun x => process_review detect vader model (resetReview x) := by
  refine ⟨?_, rfl, rfl, rfl, rfl, rfl, rfl,
    analyze_eq_map detect vader model store hn⟩
  apply filter_eq_self_of_all
  intro x hx
  simp only [List.mem_map] at hx
  obtain ⟨x0, _, rfl⟩ := hx
  rfl

theorem reset_frame_and_full_selection_witness :
    ([freshDoc 1 "pretty fun game", freshDoc 2 "mid"].map resetReview).filter
        (fun x => x.roberta_label.isNone) =
      [freshDoc 1 "pretty fun game", freshDoc 2 "mid"].map resetReview
    ∧ (resetReview skDoc).roberta_label = none
    ∧ (resetReview skDoc).vader_score = none
    ∧ (resetReview skDoc).roberta_confidence = skDoc.roberta_confidence
    ∧ (resetReview skDoc).analyzed_at = skDoc.analyzed_at
    ∧ (resetReview skDoc).skipped = skDoc.skipped
    ∧ (resetReview skDoc).reason = skDoc.reason
    ∧ analyze_sentiment detectEn vaderZero modelFail
        [freshDoc 1 "pretty fun game", freshDoc 2 "mid"] =
      [freshDoc 1 "pretty fun game", freshDoc 2 "mid"].map fun x =>
        process_review detectEn vaderZero modelFail (resetReview x) :=
  reset_frame_and_full_selection detectEn vaderZero modelFail
    [freshDoc 1 "pretty fun game", freshDoc 2 "mid"] (by decide) skDoc

/-- C1 counterexample: a record that enters the pass with
`skipped = true` is indeed re-evaluated (its `roberta_label` is written
again), but the reconsideration step never clears the `skipped`/`reason`
flags — after the pass they still read `true` / `"Not English/Empty"`,
refuting the claim that the step clears them and returns the record to a
clean Unanalyzed state. -/
theorem skip_flags_not_cleared_cex :
    (analyze_sentiment detectEn vaderZero modelFail [skDoc]).map
        (fun r => (r.skipped, r.reason, r.roberta_label)) =
      [(some true, some "Not English/Empty", some "Neutral")] := by decide

/-- C1 amended: the reconsideration step does not clear the skip flags;
it removes the `roberta_label`/`vader_score` fields from every record,
which puts every previously skipped record back into the selection, so a
skipped record whose text now passes the gate is fully re-analyzed on the
next pass (analysis fields all written) — no permanent skip lock-in —
although its stale `skipped`/`reason` flags are left in place. -/
theorem skipped_record_reanalyzed (detect : String → Option String)
    (vader : String → ℚ) (model : String → Option (Fin 3 → ℚ))
    (store : List ReviewDoc) (hn : idsNodup store) (i : Nat) (r : ReviewDoc)
    (hr : store[i]? = some r) (_hsk : r.skipped = some true)
    (htrim : isBlank r.review = false)
    (heng : is_actually_english detect r.review = true) :
    (analyze_sentiment detect vader model store)[i]? =
      some (analyzePatch (vader r.review)
        (get_roberta_sentiment model r.review) (resetReview r))
    ∧ (analyzePatch (vader r.review) (get_roberta_sentiment model r.review)
        (resetReview r)).roberta_label =
          some (get_roberta_sentiment model r.review).label
    ∧ (analyzePatch (vader r.review) (get_roberta_sentiment model r.review)
        (resetReview r)).vader_score = some (vader r.review)
    ∧ (analyzePatch (vader r.review) (get_roberta_sentiment model r.review)
        (resetReview r)).analyzed_at = some "hybrid_v2" := by
  refine ⟨?_, rfl, rfl, rfl⟩
  rw [analyze_eq_map detect vader model store hn, List.getElem?_map, hr,
    Option.map_some']
  have hcond : (isBlank (resetReview r).review
      || !(is_actually_english detect (resetReview r).review)) = false := by
    show (isBlank r.review || !(is_actually_english detect r.review)) = false
    rw [htrim, heng]
    rfl
  unfold process_review mkOp
  rw [if_neg (by simp [hcond])]
  rfl

theorem skipped_record_reanalyzed_witness :
    (analyze_sentiment detectEn vaderZero modelFail [skDoc])[0]? =
      some (analyzePatch (vaderZero skDoc.review)
        (get_roberta_sentiment modelFail skDoc.review) (resetReview skDoc))
    ∧ (analyzePatch (vaderZero skDoc.review)
        (get_roberta_sentiment modelFail skDoc.review)
        (resetReview skDoc)).roberta_label =
          some (get_roberta_sentiment modelFail skDoc.review).label
    ∧ (analyzePatch (vaderZero skDoc.review)
        (get_roberta_sentiment modelFail skDoc.review)
        (resetReview skDoc)).vader_score = some (vaderZero skDoc.review)
    ∧ (analyzePatch (vaderZero skDoc.review)
        (get_roberta_sentiment modelFail skDoc.review)
        (resetReview skDoc)).analyzed_at = some "hybrid_v2" :=
  skipped_record_reanalyzed detectEn vaderZero modelFail [skDoc] (by decide)
    0 skDoc rfl rfl (by decide) (by decide)

/-- C2 counterexample: a record skipped by a first pass (detector raised,
gate ineligible) and re-analyzed by a second pass (detector now says
English) ends the second, completed pass with both analysis labels
present AND `skipped = true` — a mixed state the claimed invariant
forbids. -/
theorem mixed_state_cex :
    (analyze_sentiment detectEn vaderZero modelFail
        (analyze_sentiment detectNone vaderZero modelFail
          [freshDoc 1 "hello world"])).map
      (fun r => (r.skipped, r.roberta_label, r.vader_score)) =
    [(some true, some "Neutral", some (0 : ℚ))] := by decide

/-- C2 amended: the all-or-nothing annotation invariant holds for a pass
over a store with no pre-existing skip flags (e.g. freshly ingested
records): each record ends either fully analyzed (`roberta_label` and
`vader_score` present, no skip flag) or fully skipped (`skipped = true`,
reason set, both analysis fields absent).  Records whose input already
carried `skipped = true` keep that stale flag even when fully analyzed,
so the invariant does not extend to arbitrary stores. -/
theorem fresh_pass_invariant (detect : String → Option String)
    (vader : String → ℚ) (model : String → Option (Fin 3 → ℚ))
    (store : List ReviewDoc) (hn : idsNodup store)
    (hfresh : ∀ r ∈ store, r.skipped = none) (i : Nat) (r' : ReviewDoc)
    (hr' : (analyze_sentiment detect vader model store)[i]? = some r') :
    (r'.roberta_label.isSome ∧ r'.vader_score.isSome ∧ r'.skipped = none)
    ∨ (r'.skipped = some true ∧ r'.roberta_label = none
        ∧ r'.vader_score = none ∧ r'.reason = some "Not English/Empty") := by
  rw [analyze_eq_map detect vader model store hn, List.getElem?_map] at hr'
  cases hst : store[i]? with
  | none => rw [hst] at hr'; simp at hr'
  | some r =>
    rw [hst, Option.map_some'] at hr'
    have hmem : r ∈ store := List.getElem?_mem hst
    have hr'' : process_review detect vader model (resetReview r) = r' := by
      injection hr'
    rw [← hr'']
    unfold process_review mkOp
    split
    · right
      exact ⟨rfl, rfl, rfl, rfl⟩
    · left
      exact ⟨rfl, rfl, hfresh r hmem⟩

theorem fresh_pass_invariant_witness :
    ((skipPatch (resetReview (freshDoc 2 ""))).roberta_label.isSome
      ∧ (skipPatch (resetReview (freshDoc 2 ""))).vader_score.isSome
      ∧ (skipPatch (resetReview (freshDoc 2 ""))).skipped = none)
    ∨ ((skipPatch (resetReview (freshDoc 2 ""))).skipped = some true
      ∧ (skipPatch (resetReview (freshDoc 2 ""))).roberta_label = none
      ∧ (skipPatch (resetReview (freshDoc 2 ""))).vader_score = none
      ∧ (skipPatch (resetReview (freshDoc 2 ""))).reason =
          some "Not English/Empty") :=
  fresh_pass_invariant detectEn vaderZero modelFail
    [freshDoc 1 "hello world", freshDoc 2 ""] (by decide) (by decide) 1
    (skipPatch (resetReview (freshDoc 2 ""))) (by decide)

/-- A stored document whose text is not detected as English. -/
def rusDoc : ReviewDoc := freshDoc 3 "отличная игра на самом деле"

/-- C5 counterexample: the patch written for a gate-ineligible record
sets only `skipped` and `reason`; after the pass both label-bearing
fields (`roberta_label`, `vader_score`) are absent and no stored field
holds a `Skipped` label, refuting the claim that the orchestrator
patches the stored record's lexicon label to `Skipped`. -/
theorem skip_patch_no_skipped_label_cex :
    (analyze_sentiment detectNone vaderZero modelFail [rusDoc]).map
        (fun r => (r.skipped, r.reason, r.roberta_label, r.vader_score)) =
      [(some true, some "Not English/Empty", none, none)] := by decide

/-- C5 amended: for a gate-ineligible record the orchestrator patches
exactly `{skipped: true, reason: "Not English/Empty"}`, writing none of
the four analysis fields and no label field to the store; the `Skipped`
lexicon label only arises downstream, in the dashboard's derived
`vader_label`, which returns `Skipped` for skipped rows regardless of
the numeric score (the override). -/
theorem ineligible_patch (detect : String → Option String)
    (vader : String → ℚ) (model : String → Option (Fin 3 → ℚ))
    (r : ReviewDoc) (score : ℚ)
    (h : (isBlank r.review || !(is_actually_english detect r.review)) = true) :
    process_review detect vader model r =
      { r with skipped := some true, reason := some "Not English/Empty" }
    ∧ (process_review detect vader model r).vader_score = r.vader_score
    ∧ (process_review detect vader model r).roberta_label = r.roberta_label
    ∧ (process_review detect vader model r).roberta_confidence =
        r.roberta_confidence
    ∧ (process_review detect vader model r).analyzed_at = r.analyzed_at
    ∧ get_vader_label "Skipped" score = "Skipped" := by
  have hp : process_review detect vader model r = skipPatch r := by
    unfold process_review mkOp
    rw [if_pos h]
  refine ⟨hp, ?_, ?_, ?_, ?_, rfl⟩ <;> rw [hp] <;> rfl

theorem ineligible_patch_witness :
    process_review detectNone vaderZero modelFail rusDoc =
      { rusDoc with skipped := some true, reason := some "Not English/Empty" }
    ∧ (process_review detectNone vaderZero modelFail rusDoc).vader_score =
        rusDoc.vader_score
    ∧ (process_review detectNone vaderZero modelFail rusDoc).roberta_label =
        rusDoc.roberta_label
    ∧ (process_review detectNone vaderZero modelFail rusDoc).roberta_confidence =
        rusDoc.roberta_confidence
    ∧ (process_review detectNone vaderZero modelFail rusDoc).analyzed_at =
        rusDoc.analyzed_at
    ∧ get_vader_label "Skipped" (-(9 : ℚ) / 10) = "Skipped" :=
  ineligible_patch detectNone vaderZero modelFail rusDoc (-(9 : ℚ) / 10)
    (by decide)

/-- C4 counterexample: a skipped stored record (no `roberta_label`,
`skipped = true`) is excluded from the agreement count but lands in the
tab-2 disagreement set `game_df[~game_df['models_agree']]` — it counts
toward disagreement, refuting "contributes to neither". -/
theorem skipped_counts_as_disagreement_cex :
    skDoc.skipped = some true ∧ skDoc.roberta_label = none
    ∧ agreeCount [skDoc] = 0 ∧ disagreeCount [skDoc] = 1 := by decide

theorem models_agree_of_skipped (x : ReviewDoc)
    (h : (fillnaLabel x == "Skipped") = true) : models_agree x = false := by
  unfold models_agree
  have : (fillnaLabel x != "Skipped") = false := by
    simp only [bne, h, Bool.not_true]
  rw [this, Bool.and_false]

/-- C4 amended: rows whose (filled) RoBERTa label is `Skipped` are
excluded from the agreement count, but because the dashboard computes
disagreement as the complement of `models_agree`, every such row counts
toward the disagreement set; two labels agree exactly when both are
non-`Skipped` and textually equal. -/
theorem agreement_exclusion (rs : List ReviewDoc) (r : ReviewDoc) :
    agreeCount rs =
        agreeCount (rs.filter (fun x => fillnaLabel x != "Skipped"))
    ∧ disagreeCount rs =
        disagreeCount (rs.filter (fun x => fillnaLabel x != "Skipped"))
          + (rs.filter (fun x => fillnaLabel x == "Skipped")).length
    ∧ (models_agree r = true ↔
        fillnaLabel r ≠ "Skipped" ∧ vaderLabelRow r ≠ "Skipped"
          ∧ fillnaLabel r = vaderLabelRow r) := by
  refine ⟨?_, ?_, ?_⟩
  · unfold agreeCount
    induction rs with
    | nil => rfl
    | cons x xs ih =>
      by_cases hsk : (fillnaLabel x == "Skipped") = true
      · have hbne : (fillnaLabel x != "Skipped") = false := by
          simp only [bne, hsk, Bool.not_true]
        simp only [List.filter_cons, models_agree_of_skipped x hsk, hbne,
          Bool.false_eq_true, if_false, ih]
      · have hbne : (fillnaLabel x != "Skipped") = true := by
          simp only [bne, Bool.not_eq_true] at *
          simp [hsk]
        simp only [List.filter_cons, hbne, if_true]
        by_cases hag : models_agree x = true
        · simp only [hag, if_true, List.length_cons, ih]
        · simp only [Bool.not_eq_true] at hag
          simp only [List.filter_cons, hag, Bool.false_eq_true, if_false, ih]
  · unfold disagreeCount
    induction rs with
    | nil => rfl
    | cons x xs ih =>
      by_cases hsk : (fillnaLabel x == "Skipped") = true
      · have hbne : (fillnaLabel x != "Skipped") = false := by
          simp only [bne, hsk, Bool.not_true]
        simp only [List.filter_cons, models_agree_of_skipped x hsk, hbne, hsk,
          Bool.not_false, if_true, Bool.false_eq_true, if_false,
          List.length_cons]
        omega
      · have hsk' : (fillnaLabel x == "Skipped") = false := by
          simp only [Bool.not_eq_true] at hsk
          exact hsk
        have hbne : (fillnaLabel x != "Skipped") = true := by
          simp only [bne, hsk', Bool.not_false]
        simp only [List.filter_cons, hbne, hsk', if_true, Bool.false_eq_true,
          if_false]
        by_cases hag : models_agree x = true
        · simp only [hag, Bool.not_true, Bool.false_eq_true, if_false, ih]
        · simp only [Bool.not_eq_true] at hag
          simp only [hag, Bool.not_false, if_true, List.length_cons, ih]
          omega
  · constructor
    · intro h
      unfold models_agree at h
      rw [Bool.and_eq_true, beq_iff_eq, bne_iff_ne] at h
      exact ⟨h.2, h.1 ▸ h.2, h.1⟩
    · rintro ⟨h1, _, h3⟩
      unfold models_agree
      rw [Bool.and_eq_true, beq_iff_eq, bne_iff_ne]
      exact ⟨h3, h1⟩
